import Mathlib

/-!
Verification of the scheduling core of the repository (Django app
`scheduling`, file `scheduling/views.py`) against its natural-language
specification.

Shallow embedding conventions:
* Times of day are natural numbers of minutes since midnight (the code
  compares `datetime.time` values for one fixed date, which is exactly
  minute-of-day comparison).
* Dates are natural numbers of days since a Monday epoch, so Python's
  `date.weekday()` (Monday = 0 … Sunday = 6) is `d % 7`.
* Django querysets over the two stores are lists passed as arguments;
  a queryset `.filter(...)` is `List.filter`, `.exists()` is non-emptiness.
* Request parsing and HTTP are external; the three request-outcome branches
  of the slot view's date parameter (absent, `strptime` failure, parsed
  date) are the constructors of `DateParam`.
* A view that may mutate one appointment record is a pure function
  returning the final record together with the response outcome
  (`Except ApiError`); an error response leaves the record equal to the
  input, mirroring the code, which only calls `save` on the success path.
* `Appointment.status` is the raw string the code stores
  ("requested" / "confirmed" / "cancelled" / "completed").
-/

namespace Scheduling

/-- views.py line 27: `SLOT_MINUTES = 45`. -/
def SLOT_MINUTES : Nat := 45

/-- One row of the `Availability` store as the slot view reads it
(fields `kinesiologist_id`, `day`, `start_time`, `end_time`). -/
structure Availability where
  kinesiologistId : Nat
  day : Nat
  start_time : Nat
  end_time : Nat
deriving DecidableEq, Repr

/-- One row of the `Appointment` store as views.py reads and writes it.
`kineUserId` models `appointment.kinesiologist.user`, the account the
two patch views compare against `request.user` (lines 289, 319);
`kinesiologistId` is the foreign key used by the store filters. -/
structure Appointment where
  id : Nat
  kinesiologistId : Nat
  kineUserId : Nat
  patientId : Nat
  date : Nat
  start_time : Nat
  end_time : Nat
  status : String
  kine_comment : Option String
  comment_updated_at : Option Nat
deriving DecidableEq, Repr

/-- One element of the `slots` list built at views.py lines 222-229.
The dict in the code also carries a redundant `"datetime"` key equal to
`combine(date, start_time)`; it is determined by the other fields and
dropped here. -/
structure Slot where
  date : Nat
  start_time : Nat
  end_time : Nat
deriving DecidableEq, Repr

/-- Response outcomes of the embedded views (HTTP 400, 403, and the
409/500-class storage failure). -/
inductive ApiError where
  | validationError
  | authorizationError
  | conflictError
deriving DecidableEq, Repr

/-- The three branches the slot view takes on its `date` query parameter
(views.py lines 174-187): absent (or empty, line 175), present but not
`YYYY-MM-DD` (the `ValueError` branch, line 183), or parsed. -/
inductive DateParam where
  | missing
  | malformed (raw : String)
  | valid (d : Nat)

/-- Python's `date.weekday()` under the days-since-Monday encoding. -/
def weekday (d : Nat) : Nat := d % 7

/-- The queryset condition at views.py lines 214-217:
`start_time__lt=current_end.time(), end_time__gt=current_start.time()`,
applied to one appointment against the candidate slot `[cur, curEnd)`. -/
def overlapsB (a : Appointment) (cur curEnd : Nat) : Bool :=
  decide (a.start_time < curEnd) && decide (cur < a.end_time)

/-- The half-open interval overlap predicate of spec §4.2:
`a.start < b.end AND b.start < a.end`. -/
def overlaps (aStart aEnd bStart bEnd : Nat) : Prop :=
  aStart < bEnd ∧ bStart < aEnd

/-- The `while current_start + slot_length <= avail_end_dt` loop of
views.py lines 211-231, as structural recursion on a fuel argument;
`fuel ≥ stop - cur` suffices because each iteration advances `cur` by
`SLOT_MINUTES ≥ 1`.  A candidate slot `[cur, cur + SLOT_MINUTES)` is
appended unless some already-loaded appointment overlaps it. -/
def tileAux (appts : List Appointment) (d : Nat) :
    Nat → Nat → Nat → List Slot
  | 0, _, _ => []
  | fuel + 1, cur, stop =>
    if cur + SLOT_MINUTES ≤ stop then
      let curEnd := cur + SLOT_MINUTES
      if appts.any (fun a => overlapsB a cur curEnd) then
        tileAux appts d fuel curEnd stop
      else
        ⟨d, cur, curEnd⟩ :: tileAux appts d fuel curEnd stop
    else []

/-- The slot loop for one availability window `[cur, stop)`. -/
def tileWindow (appts : List Appointment) (d cur stop : Nat) : List Slot :=
  tileAux appts d (stop - cur) cur stop

/-- `KinesiologistAvailableSlotsView.get` (views.py lines 173-234).
`avails` and `appts` are the full contents of the two stores; the date
branches, the two store filters, the emptiness early return, and the
per-window tiling loop follow the code line by line. -/
def listAvailableSlots (kid : Nat) (dp : DateParam)
    (avails : List Availability) (appts : List Appointment) :
    Except ApiError (List Slot) :=
  match dp with
  | .missing => .error .validationError
  | .malformed _ => .error .validationError
  | .valid d =>
    let dow := weekday d
    let availQs := avails.filter
      (fun a => a.kinesiologistId == kid && a.day == dow)
    if availQs.isEmpty then .ok []
    else
      let existing := appts.filter
        (fun a => a.kinesiologistId == kid && a.date == d)
      .ok ((availQs.map
        (fun av => tileWindow existing d av.start_time av.end_time)).flatten)

/-- `AppointmentStatusView.patch` (views.py lines 286-308): the caller
check (line 289) precedes the status-value check (line 296); on success
only the `status` field is written (`update_fields=["status"]`,
line 303).  Returns the final record and the response outcome. -/
def appointmentStatusPatch (callerUserId : Nat) (newStatus : Option String)
    (appt : Appointment) : Appointment × Except ApiError Unit :=
  if callerUserId = appt.kineUserId then
    match newStatus with
    | some s =>
      if s == "confirmed" || s == "cancelled" then
        ({ appt with status := s }, .ok ())
      else
        (appt, .error .validationError)
    | none => (appt, .error .validationError)
  else
    (appt, .error .authorizationError)

/-- Membership in the characters Python's `str.strip()` removes,
restricted to the ASCII whitespace range (space, tab, LF, CR, VT, FF);
the comment strings the claims quantify over are modelled over this
alphabet. -/
def isPySpace (c : Char) : Bool :=
  c.toNat == 32 || c.toNat == 9 || c.toNat == 10 ||
  c.toNat == 13 || c.toNat == 11 || c.toNat == 12

/-- `str.strip()` on the underlying character list: drop whitespace from
the front, then from the back. -/
def stripList (l : List Char) : List Char :=
  ((l.dropWhile isPySpace).reverse.dropWhile isPySpace).reverse

/-- Python's `str(comment).strip()` (views.py lines 326, 332). -/
def strip (s : String) : String := ⟨stripList s.data⟩

/-- `AppointmentCommentView.patch` (views.py lines 316-340): the caller
check (line 319) precedes the blank-comment check (line 326); on success
the stripped comment, the status `"completed"`, and the timestamp `now`
(modelling `timezone.now()`) are all written by the one
`save(update_fields=["kine_comment", "status", "comment_updated_at"])`
at line 335.  `comment` is `request.data.get("kine_comment")`:
`none` for an absent or null key, otherwise the value as the string
`str(comment)`; the guard `not comment or not str(comment).strip()`
rejects the empty string and whitespace-only strings. -/
def appointmentCommentPatch (callerUserId : Nat) (comment : Option String)
    (now : Nat) (appt : Appointment) : Appointment × Except ApiError Unit :=
  if callerUserId = appt.kineUserId then
    match comment with
    | some c =>
      if c == "" || strip c == "" then
        (appt, .error .validationError)
      else
        ({ appt with
            kine_comment := some (strip c),
            status := "completed",
            comment_updated_at := some now }, .ok ())
    | none => (appt, .error .validationError)
  else
    (appt, .error .authorizationError)

/-- `AppointmentCreateView.post` (views.py lines 113-162) after its
serializer validation has succeeded (the claims quantify over well-formed
requests).  `patientUserId` is `serializer.validated_data['patient_name'].user`
and `kineUserId` is `kinesiologist.user`; the authorization test is
line 123 verbatim.  The serializer's `save` (serializers.py, outside the
given sources) is abstracted as a function from the store contents to the
new store contents and an outcome; it is reached only when the caller is
authorized. -/
def appointmentCreatePost (callerUserId : Nat) (callerIsSuperuser : Bool)
    (patientUserId kineUserId : Nat)
    (save : List Appointment → List Appointment × Except ApiError Appointment)
    (store : List Appointment) :
    List Appointment × Except ApiError Appointment :=
  if callerIsSuperuser || callerUserId == patientUserId
      || callerUserId == kineUserId then
    save store
  else
    (store, .error .authorizationError)

end Scheduling

namespace Scheduling

/-! ## Structure of the tiling loop -/

/-- With no appointments loaded, the while loop tiles the window
`[cur, stop)` into exactly `(stop - cur) / SLOT_MINUTES` consecutive
slots of length `SLOT_MINUTES`. -/
theorem tileAux_nil_eq (d : Nat) (fuel : Nat) :
    ∀ cur stop, stop - cur ≤ fuel →
    tileAux [] d fuel cur stop =
      (List.range ((stop - cur) / SLOT_MINUTES)).map
        (fun k => ⟨d, cur + SLOT_MINUTES * k,
                    cur + SLOT_MINUTES * k + SLOT_MINUTES⟩) := by
  induction fuel with
  | zero =>
    intro cur stop h
    have h0 : stop - cur = 0 := Nat.le_zero.mp h
    simp [tileAux, h0]
  | succ fuel ih =>
    intro cur stop h
    have hSM : SLOT_MINUTES = 45 := rfl
    simp only [tileAux, List.any_nil, Bool.false_eq_true, if_false]
    by_cases hc : cur + SLOT_MINUTES ≤ stop
    · rw [if_pos hc]
      rw [ih (cur + SLOT_MINUTES) stop (by omega)]
      have hle : SLOT_MINUTES ≤ stop - cur := by omega
      rw [Nat.div_eq_sub_div (by decide) hle, List.range_succ_eq_map,
        List.map_cons, List.map_map]
      have harg : stop - (cur + SLOT_MINUTES) = stop - cur - SLOT_MINUTES := by
        omega
      rw [harg]
      refine congrArg₂ _ (by simp) ?_
      refine List.map_congr_left (fun k _ => ?_)
      simp only [Function.comp_apply, Nat.succ_eq_add_one]
      congr 1 <;> ring
    · rw [if_neg hc]
      have h0 : (stop - cur) / SLOT_MINUTES = 0 := Nat.div_eq_of_lt (by omega)
      simp [h0]

/-- The per-window loop with no appointments, in closed form. -/
theorem tileWindow_nil_eq (d cur stop : Nat) :
    tileWindow [] d cur stop =
      (List.range ((stop - cur) / SLOT_MINUTES)).map
        (fun k => ⟨d, cur + SLOT_MINUTES * k,
                    cur + SLOT_MINUTES * k + SLOT_MINUTES⟩) :=
  tileAux_nil_eq d (stop - cur) cur stop le_rfl

/-- With an empty appointment store, the slot view returns exactly the
tilings of the retained windows, concatenated in window order. -/
theorem listAvailableSlots_nil_appts (kid d : Nat)
    (avails : List Availability) :
    listAvailableSlots kid (.valid d) avails [] =
      .ok (((avails.filter
          (fun a => a.kinesiologistId == kid && a.day == weekday d)).map
        (fun av => (List.range
            ((av.end_time - av.start_time) / SLOT_MINUTES)).map
          (fun k => ⟨d, av.start_time + SLOT_MINUTES * k,
                      av.start_time + SLOT_MINUTES * k + SLOT_MINUTES⟩))).flatten) := by
  simp only [listAvailableSlots, List.filter_nil]
  split
  · next hemp =>
    rw [List.isEmpty_iff] at hemp
    rw [hemp]
    simp
  · next hemp =>
    rw [Except.ok.injEq]
    exact congrArg _ (List.map_congr_left fun av _ => tileWindow_nil_eq d _ _)

end Scheduling

namespace Scheduling

/-- C1: for every availability window retained for the queried day,
`listAvailableSlots` tiles candidate slots of exactly `SLOT_MINUTES`
starting at the window's start time and stepping by `SLOT_MINUTES`,
stopping once the next slot would exceed the window's end time (any
shorter remainder is discarded); in particular a 09:00-10:30 window
(minutes 540-630) with no appointments yields exactly
[09:00-09:45, 09:45-10:30] ([540-585, 585-630]). -/
theorem listAvailableSlots_tiling (kid d : Nat)
    (avails : List Availability) :
    listAvailableSlots kid (.valid d) avails [] =
      .ok (((avails.filter
          (fun a => a.kinesiologistId == kid && a.day == weekday d)).map
        (fun av => (List.range
            ((av.end_time - av.start_time) / SLOT_MINUTES)).map
          (fun k => ⟨d, av.start_time + SLOT_MINUTES * k,
                      av.start_time + SLOT_MINUTES * k + SLOT_MINUTES⟩))).flatten) ∧
    listAvailableSlots kid (.valid d) [⟨kid, weekday d, 540, 630⟩] [] =
      .ok [⟨d, 540, 585⟩, ⟨d, 585, 630⟩] := by
  refine ⟨listAvailableSlots_nil_appts kid d avails, ?_⟩
  rw [listAvailableSlots_nil_appts kid d [⟨kid, weekday d, 540, 630⟩]]
  norm_num [SLOT_MINUTES, List.filter, List.range_succ]

/-! ## No slot overlaps a loaded appointment -/

/-- Every slot the while loop emits was checked against every loaded
appointment: the queryset overlap condition is false for all of them. -/
theorem tileAux_no_overlap (appts : List Appointment) (d : Nat)
    (fuel : Nat) :
    ∀ cur stop sl, sl ∈ tileAux appts d fuel cur stop →
      ∀ a ∈ appts, overlapsB a sl.start_time sl.end_time = false := by
  induction fuel with
  | zero =>
    intro cur stop sl hsl
    simp [tileAux] at hsl
  | succ fuel ih =>
    intro cur stop sl hsl a ha
    simp only [tileAux] at hsl
    split at hsl
    · split at hsl
      · exact ih _ _ _ hsl a ha
      · next hany =>
        rcases List.mem_cons.mp hsl with rfl | hsl'
        · have hall := List.any_eq_false.mp (Bool.not_eq_true _ ▸ hany) a ha
          simpa using hall
        · exact ih _ _ _ hsl' a ha
    · simp at hsl

/-- Any slot returned by the slot view passes the overlap filter against
every appointment of the queried provider and date, whatever its status. -/
theorem listAvailableSlots_isFree (kid d : Nat)
    (avails : List Availability) (appts : List Appointment)
    (slots : List Slot) (sl : Slot) (a : Appointment)
    (h : listAvailableSlots kid (.valid d) avails appts = .ok slots)
    (hsl : sl ∈ slots) (ha : a ∈ appts)
    (hk : a.kinesiologistId = kid) (hd : a.date = d) :
    ¬ overlaps a.start_time a.end_time sl.start_time sl.end_time := by
  simp only [listAvailableSlots] at h
  split at h
  · rw [Except.ok.injEq] at h
    subst h
    simp at hsl
  · rw [Except.ok.injEq] at h
    subst h
    rcases List.mem_flatten.mp hsl with ⟨l, hl, hsl'⟩
    rcases List.mem_map.mp hl with ⟨av, _, rfl⟩
    have hmem : a ∈ appts.filter
        (fun a => a.kinesiologistId == kid && a.date == d) := by
      simp [List.mem_filter, ha, hk, hd]
    have hfree := tileAux_no_overlap _ d _ _ _ sl hsl' a hmem
    intro hov
    rcases hov with ⟨h1, h2⟩
    simp only [overlapsB, Bool.and_eq_false_iff, decide_eq_false_iff_not,
      not_lt] at hfree
    rcases hfree with h3 | h3 <;> omega

end Scheduling

namespace Scheduling

/-- C2: no slot returned by `listAvailableSlots` overlaps any existing
non-terminal (requested or confirmed) appointment of the queried provider
and date, overlap taken as the half-open rule
`a.start < b.end AND b.start < a.end`. -/
theorem no_slot_overlaps_nonterminal (kid d : Nat)
    (avails : List Availability) (appts : List Appointment)
    (slots : List Slot) (sl : Slot) (a : Appointment)
    (h : listAvailableSlots kid (.valid d) avails appts = .ok slots)
    (hsl : sl ∈ slots) (ha : a ∈ appts)
    (hk : a.kinesiologistId = kid) (hd : a.date = d)
    (hstat : a.status = "requested" ∨ a.status = "confirmed") :
    ¬ overlaps a.start_time a.end_time sl.start_time sl.end_time :=
  listAvailableSlots_isFree kid d avails appts slots sl a h hsl ha hk hd

/-- Witness for C2: window 09:00-10:30, a requested appointment
09:45-10:30; the view returns only 09:00-09:45, which does not overlap
the appointment. -/
theorem no_slot_overlaps_nonterminal_witness :
    ¬ overlaps 585 630 540 585 :=
  no_slot_overlaps_nonterminal 1 0 [⟨1, 0, 540, 630⟩]
    [⟨10, 1, 7, 2, 0, 585, 630, "requested", none, none⟩]
    [⟨0, 540, 585⟩] ⟨0, 540, 585⟩
    ⟨10, 1, 7, 2, 0, 585, 630, "requested", none, none⟩
    rfl (by decide) (by decide) rfl rfl (Or.inl rfl)

/-- C7: the overlap filter of `listAvailableSlots` also runs against
cancelled appointments of the queried provider and date — a slot
overlapping a cancelled appointment is excluded, so no returned slot
overlaps one. -/
theorem no_slot_overlaps_cancelled (kid d : Nat)
    (avails : List Availability) (appts : List Appointment)
    (slots : List Slot) (sl : Slot) (a : Appointment)
    (h : listAvailableSlots kid (.valid d) avails appts = .ok slots)
    (hsl : sl ∈ slots) (ha : a ∈ appts)
    (hk : a.kinesiologistId = kid) (hd : a.date = d)
    (hstat : a.status = "cancelled") :
    ¬ overlaps a.start_time a.end_time sl.start_time sl.end_time :=
  listAvailableSlots_isFree kid d avails appts slots sl a h hsl ha hk hd

/-- Witness for C7: window 09:00-10:30, a cancelled appointment
09:00-09:45; the view returns only 09:45-10:30, which does not overlap
the cancelled appointment. -/
theorem no_slot_overlaps_cancelled_witness :
    ¬ overlaps 540 585 585 630 :=
  no_slot_overlaps_cancelled 1 0 [⟨1, 0, 540, 630⟩]
    [⟨11, 1, 7, 2, 0, 540, 585, "cancelled", none, none⟩]
    [⟨0, 585, 630⟩] ⟨0, 585, 630⟩
    ⟨11, 1, 7, 2, 0, 540, 585, "cancelled", none, none⟩
    rfl (by decide) (by decide) rfl rfl rfl

end Scheduling

namespace Scheduling

/-- C6: a missing or unparseable date parameter makes the slot view fail
with a validation error whatever the two stores contain (so the outcome
is fixed before any store lookup), and a parsed date for which no
availability row of the provider matches the weekday yields `ok []`. -/
theorem listAvailableSlots_date_guard (kid d : Nat) (raw : String)
    (avails : List Availability) (appts : List Appointment)
    (hnone : ∀ a ∈ avails, a.kinesiologistId = kid → a.day ≠ weekday d) :
    listAvailableSlots kid .missing avails appts
        = .error .validationError ∧
    listAvailableSlots kid (.malformed raw) avails appts
        = .error .validationError ∧
    listAvailableSlots kid (.valid d) avails appts = .ok [] := by
  refine ⟨rfl, rfl, ?_⟩
  have hfil : avails.filter
      (fun a => a.kinesiologistId == kid && a.day == weekday d) = [] := by
    rw [List.filter_eq_nil_iff]
    intro a ha
    simp only [Bool.and_eq_true, beq_iff_eq, not_and]
    exact fun h1 h2 => hnone a ha h1 h2
  simp [listAvailableSlots, hfil]

/-- Witness for C6: provider 1, a Tuesday (day 1) window and another
provider's Monday window in the store, queried for a Monday (`d = 0`):
both error branches fire for arbitrary stores and the valid-date branch
returns the empty list. -/
theorem listAvailableSlots_date_guard_witness :
    listAvailableSlots 1 .missing
        [⟨1, 1, 540, 630⟩, ⟨2, 0, 540, 630⟩]
        [⟨10, 1, 7, 2, 0, 540, 585, "requested", none, none⟩]
        = .error .validationError ∧
    listAvailableSlots 1 (.malformed "2023-13-40")
        [⟨1, 1, 540, 630⟩, ⟨2, 0, 540, 630⟩]
        [⟨10, 1, 7, 2, 0, 540, 585, "requested", none, none⟩]
        = .error .validationError ∧
    listAvailableSlots 1 (.valid 0)
        [⟨1, 1, 540, 630⟩, ⟨2, 0, 540, 630⟩]
        [⟨10, 1, 7, 2, 0, 540, 585, "requested", none, none⟩] = .ok [] :=
  listAvailableSlots_date_guard 1 0 "2023-13-40"
    [⟨1, 1, 540, 630⟩, ⟨2, 0, 540, 630⟩]
    [⟨10, 1, 7, 2, 0, 540, 585, "requested", none, none⟩]
    (by decide)

end Scheduling

namespace Scheduling

/-! ## Facts about `strip` -/

/-- The first character surviving `dropWhile` fails the predicate. -/
theorem head?_dropWhile_false {α : Type} (p : α → Bool) :
    ∀ l : List α, ∀ c, (List.dropWhile p l).head? = some c → p c = false
  | [], c, h => by simp [List.dropWhile] at h
  | a :: l, c, h => by
    rw [List.dropWhile_cons] at h
    split at h
    · exact head?_dropWhile_false p l c h
    · next hp =>
      simp only [List.head?_cons, Option.some.injEq] at h
      subst h
      simpa using hp

/-- A list whose head fails the predicate is untouched by `dropWhile`. -/
theorem dropWhile_eq_self_of_head {α : Type} (p : α → Bool) (l : List α)
    (h : ∀ c, l.head? = some c → p c = false) : List.dropWhile p l = l := by
  cases l with
  | nil => rfl
  | cons a l => simp [List.dropWhile_cons, h a rfl]

/-- A stripped list does not start with a whitespace character. -/
theorem stripList_head (l : List Char) (c : Char)
    (h : (stripList l).head? = some c) : isPySpace c = false := by
  rw [stripList, List.head?_reverse] at h
  obtain ⟨t, ht⟩ :=
    List.dropWhile_suffix (l := (List.dropWhile isPySpace l).reverse)
      isPySpace
  have hA : (List.dropWhile isPySpace l).reverse.getLast? = some c := by
    rw [← ht, List.getLast?_append, h]
    rfl
  rw [List.getLast?_reverse] at hA
  exact head?_dropWhile_false _ _ c hA

/-- A stripped list does not end with a whitespace character. -/
theorem stripList_getLast (l : List Char) (c : Char)
    (h : (stripList l).getLast? = some c) : isPySpace c = false := by
  rw [stripList, List.getLast?_reverse] at h
  exact head?_dropWhile_false _ _ c h

/-- Stripping is idempotent. -/
theorem stripList_idem (l : List Char) :
    stripList (stripList l) = stripList l := by
  have h1 : List.dropWhile isPySpace (stripList l) = stripList l :=
    dropWhile_eq_self_of_head _ _ (fun c hc => stripList_head l c hc)
  have h2 : List.dropWhile isPySpace (stripList l).reverse
      = (stripList l).reverse := by
    refine dropWhile_eq_self_of_head _ _ (fun c hc => ?_)
    rw [List.head?_reverse] at hc
    exact stripList_getLast l c hc
  show (((stripList l).dropWhile isPySpace).reverse.dropWhile
      isPySpace).reverse = stripList l
  rw [h1, h2, List.reverse_reverse]

/-- `strip` is idempotent: a stripped string carries no surrounding
whitespace. -/
theorem strip_idem (s : String) : strip (strip s) = strip s :=
  congrArg String.mk (stripList_idem s.data)

end Scheduling

namespace Scheduling

/-- C5: on both the status-update and the comment views, a caller other
than the assigned provider gets an authorization error whatever the
requested status, the comment, or the appointment's current state, and
the record is not mutated — the caller check precedes every other
check. -/
theorem auth_checked_before_state (callerUserId now : Nat)
    (appt : Appointment) (newStatus comment : Option String)
    (h : callerUserId ≠ appt.kineUserId) :
    appointmentStatusPatch callerUserId newStatus appt
        = (appt, .error .authorizationError) ∧
    appointmentCommentPatch callerUserId comment now appt
        = (appt, .error .authorizationError) := by
  unfold appointmentStatusPatch appointmentCommentPatch
  rw [if_neg h, if_neg h]
  exact ⟨rfl, rfl⟩

/-- Witness for C5: caller 9 is not the assigned provider (user 7) of a
cancelled appointment; both patch views return the authorization error
and the unchanged record. -/
theorem auth_checked_before_state_witness :
    appointmentStatusPatch 9 (some "confirmed")
        ⟨1, 1, 7, 2, 0, 540, 585, "cancelled", none, none⟩
      = (⟨1, 1, 7, 2, 0, 540, 585, "cancelled", none, none⟩,
         .error .authorizationError) ∧
    appointmentCommentPatch 9 (some "done") 5
        ⟨1, 1, 7, 2, 0, 540, 585, "cancelled", none, none⟩
      = (⟨1, 1, 7, 2, 0, 540, 585, "cancelled", none, none⟩,
         .error .authorizationError) :=
  auth_checked_before_state 9 5
    ⟨1, 1, 7, 2, 0, 540, 585, "cancelled", none, none⟩
    (some "confirmed") (some "done") (by decide)

/-- C9: a successful status update (caller is the assigned provider and
the requested status is "confirmed" or "cancelled") changes only the
status field; every other stored field of the appointment is exactly as
before. -/
theorem status_update_frame (appt : Appointment) (s : String)
    (hs : s = "confirmed" ∨ s = "cancelled") :
    (appointmentStatusPatch appt.kineUserId (some s) appt).2 = .ok () ∧
    (appointmentStatusPatch appt.kineUserId (some s) appt).1.status = s ∧
    (appointmentStatusPatch appt.kineUserId (some s) appt).1.id
        = appt.id ∧
    (appointmentStatusPatch appt.kineUserId (some s) appt).1.kinesiologistId
        = appt.kinesiologistId ∧
    (appointmentStatusPatch appt.kineUserId (some s) appt).1.kineUserId
        = appt.kineUserId ∧
    (appointmentStatusPatch appt.kineUserId (some s) appt).1.patientId
        = appt.patientId ∧
    (appointmentStatusPatch appt.kineUserId (some s) appt).1.date
        = appt.date ∧
    (appointmentStatusPatch appt.kineUserId (some s) appt).1.start_time
        = appt.start_time ∧
    (appointmentStatusPatch appt.kineUserId (some s) appt).1.end_time
        = appt.end_time ∧
    (appointmentStatusPatch appt.kineUserId (some s) appt).1.kine_comment
        = appt.kine_comment ∧
    (appointmentStatusPatch appt.kineUserId (some s) appt).1.comment_updated_at
        = appt.comment_updated_at := by
  rcases hs with rfl | rfl <;> simp [appointmentStatusPatch]

/-- Witness for C9: provider user 7 confirms a requested appointment;
only the status changes. -/
theorem status_update_frame_witness :
    (appointmentStatusPatch 7 (some "confirmed")
        ⟨1, 1, 7, 2, 0, 540, 585, "requested", some "x", some 3⟩).2
      = .ok () ∧
    (appointmentStatusPatch 7 (some "confirmed")
        ⟨1, 1, 7, 2, 0, 540, 585, "requested", some "x", some 3⟩).1.status
      = "confirmed" ∧
    (appointmentStatusPatch 7 (some "confirmed")
        ⟨1, 1, 7, 2, 0, 540, 585, "requested", some "x", some 3⟩).1.id
      = 1 ∧
    (appointmentStatusPatch 7 (some "confirmed")
        ⟨1, 1, 7, 2, 0, 540, 585, "requested", some "x", some 3⟩).1.kinesiologistId
      = 1 ∧
    (appointmentStatusPatch 7 (some "confirmed")
        ⟨1, 1, 7, 2, 0, 540, 585, "requested", some "x", some 3⟩).1.kineUserId
      = 7 ∧
    (appointmentStatusPatch 7 (some "confirmed")
        ⟨1, 1, 7, 2, 0, 540, 585, "requested", some "x", some 3⟩).1.patientId
      = 2 ∧
    (appointmentStatusPatch 7 (some "confirmed")
        ⟨1, 1, 7, 2, 0, 540, 585, "requested", some "x", some 3⟩).1.date
      = 0 ∧
    (appointmentStatusPatch 7 (some "confirmed")
        ⟨1, 1, 7, 2, 0, 540, 585, "requested", some "x", some 3⟩).1.start_time
      = 540 ∧
    (appointmentStatusPatch 7 (some "confirmed")
        ⟨1, 1, 7, 2, 0, 540, 585, "requested", some "x", some 3⟩).1.end_time
      = 585 ∧
    (appointmentStatusPatch 7 (some "confirmed")
        ⟨1, 1, 7, 2, 0, 540, 585, "requested", some "x", some 3⟩).1.kine_comment
      = some "x" ∧
    (appointmentStatusPatch 7 (some "confirmed")
        ⟨1, 1, 7, 2, 0, 540, 585, "requested", some "x", some 3⟩).1.comment_updated_at
      = some 3 :=
  status_update_frame ⟨1, 1, 7, 2, 0, 540, 585, "requested", some "x", some 3⟩
    "confirmed" (Or.inl rfl)

end Scheduling

namespace Scheduling

/-- C4: on a non-terminal appointment, the assigned provider's comment
submission fails with a validation error and leaves the record unchanged
when the comment is absent, blank, or whitespace-only; otherwise the
stripped comment, the status "completed", and the timestamp are all part
of the one resulting record (the single
`save(update_fields=[...])` of the code). -/
theorem comment_blank_rejected_else_atomic (appt : Appointment)
    (hnt : appt.status = "requested" ∨ appt.status = "confirmed")
    (c : String) (now : Nat) :
    appointmentCommentPatch appt.kineUserId none now appt
        = (appt, .error .validationError) ∧
    (strip c = "" →
      appointmentCommentPatch appt.kineUserId (some c) now appt
        = (appt, .error .validationError)) ∧
    (strip c ≠ "" →
      appointmentCommentPatch appt.kineUserId (some c) now appt
        = ({ appt with
              kine_comment := some (strip c),
              status := "completed",
              comment_updated_at := some now }, .ok ())) := by
  refine ⟨by simp [appointmentCommentPatch], ?_, ?_⟩
  · intro hblank
    simp [appointmentCommentPatch, hblank]
  · intro hne
    have hc0 : c ≠ "" := fun h0 => hne (by rw [h0]; rfl)
    simp [appointmentCommentPatch, hc0, hne]

/-- Witness for C4: a requested appointment, provider user 7; the
whitespace-only comment "  " is rejected with the record unchanged and
the comment " ok " is recorded as "ok" together with status and
timestamp. -/
theorem comment_blank_rejected_else_atomic_witness :
    appointmentCommentPatch 7 none 5
        ⟨1, 1, 7, 2, 0, 540, 585, "requested", none, none⟩
      = (⟨1, 1, 7, 2, 0, 540, 585, "requested", none, none⟩,
         .error .validationError) ∧
    (strip "  " = "" →
      appointmentCommentPatch 7 (some "  ") 5
          ⟨1, 1, 7, 2, 0, 540, 585, "requested", none, none⟩
        = (⟨1, 1, 7, 2, 0, 540, 585, "requested", none, none⟩,
           .error .validationError)) ∧
    (strip "  " ≠ "" →
      appointmentCommentPatch 7 (some "  ") 5
          ⟨1, 1, 7, 2, 0, 540, 585, "requested", none, none⟩
        = (⟨1, 1, 7, 2, 0, 540, 585, "completed", some (strip "  "),
            some 5⟩, .ok ())) :=
  comment_blank_rejected_else_atomic
    ⟨1, 1, 7, 2, 0, 540, 585, "requested", none, none⟩
    (Or.inl rfl) "  " 5

/-- C10: whenever a comment submission succeeds, the stored comment is
the submitted string with surrounding whitespace stripped — hence it is
never blank and stripping it again changes nothing. -/
theorem comment_stored_stripped (callerUserId now : Nat)
    (appt newAppt : Appointment) (c : String)
    (h : appointmentCommentPatch callerUserId (some c) now appt
          = (newAppt, .ok ())) :
    newAppt.kine_comment = some (strip c) ∧
    ∀ v, newAppt.kine_comment = some v → v ≠ "" ∧ strip v = v := by
  simp only [appointmentCommentPatch] at h
  split at h
  · split at h
    · exact absurd (congrArg Prod.snd h) (by simp)
    · next hguard =>
      simp only [Bool.or_eq_true, beq_iff_eq, not_or] at hguard
      rw [Prod.mk.injEq] at h
      obtain ⟨h1, -⟩ := h
      subst h1
      refine ⟨rfl, fun v hv => ?_⟩
      simp only [Option.some.injEq] at hv
      subst hv
      exact ⟨hguard.2, strip_idem c⟩
  · exact absurd (congrArg Prod.snd h) (by simp)

/-- Witness for C10: provider user 7 submits " hi " on a confirmed
appointment; the stored comment is the stripped string, non-blank, and
stripping it again is the identity. -/
theorem comment_stored_stripped_witness :
    (⟨1, 1, 7, 2, 0, 540, 585, "completed", some (strip " hi "),
        some 2⟩ : Appointment).kine_comment = some (strip " hi ") ∧
    ∀ v, (⟨1, 1, 7, 2, 0, 540, 585, "completed", some (strip " hi "),
        some 2⟩ : Appointment).kine_comment = some v →
      v ≠ "" ∧ strip v = v :=
  comment_stored_stripped 7 2
    ⟨1, 1, 7, 2, 0, 540, 585, "confirmed", none, none⟩
    ⟨1, 1, 7, 2, 0, 540, 585, "completed", some (strip " hi "), some 2⟩
    " hi " rfl

/-- A cancelled appointment of provider user 7, the concrete state for
claim C3. -/
def apptC3 : Appointment :=
  ⟨1, 1, 7, 2, 0, 540, 585, "cancelled", none, none⟩

/-- C3 counterexample: the status view has no terminal-state check — the
assigned provider's request to confirm an already-cancelled appointment
does not fail with a validation error leaving the record unchanged; it
succeeds and overwrites the status. -/
theorem terminal_not_closed_counterexample :
    ¬ ((appointmentStatusPatch 7 (some "confirmed") apptC3).2
          = .error .validationError ∧
       (appointmentStatusPatch 7 (some "confirmed") apptC3).1 = apptC3) := by
  intro hcl
  have hst : (appointmentStatusPatch 7 (some "confirmed") apptC3).1.status
      = "confirmed" := rfl
  rw [hcl.2] at hst
  exact absurd hst (by decide)

/-- C3 as amended: the code performs no terminal-state check, so from a
cancelled or completed appointment the assigned provider's transition
attempts are not rejected for terminality — a status update to
"confirmed" or "cancelled" succeeds and overwrites the status, and a
non-blank comment submission succeeds, recording the stripped comment,
the timestamp, and the status "completed". -/
theorem terminal_transitions_succeed (appt : Appointment)
    (hterm : appt.status = "cancelled" ∨ appt.status = "completed")
    (s : String) (hs : s = "confirmed" ∨ s = "cancelled")
    (c : String) (hc : strip c ≠ "") (now : Nat) :
    appointmentStatusPatch appt.kineUserId (some s) appt
        = ({ appt with status := s }, .ok ()) ∧
    appointmentCommentPatch appt.kineUserId (some c) now appt
        = ({ appt with
              kine_comment := some (strip c),
              status := "completed",
              comment_updated_at := some now }, .ok ()) := by
  have hc0 : c ≠ "" := fun h0 => hc (by rw [h0]; rfl)
  constructor
  · rcases hs with rfl | rfl <;> simp [appointmentStatusPatch]
  · simp [appointmentCommentPatch, hc0, hc]

/-- Witness for C3 (amended): the cancelled appointment `apptC3` is
confirmed by its provider, and a comment " ok " completes it. -/
theorem terminal_transitions_succeed_witness :
    appointmentStatusPatch 7 (some "confirmed") apptC3
        = ({ apptC3 with status := "confirmed" }, .ok ()) ∧
    appointmentCommentPatch 7 (some " ok ") 5 apptC3
        = ({ apptC3 with
              kine_comment := some (strip " ok "),
              status := "completed",
              comment_updated_at := some 5 }, .ok ()) :=
  terminal_transitions_succeed apptC3 (Or.inl rfl) "confirmed" (Or.inl rfl)
    " ok " (by decide) 5

/-- C8: a well-formed create request whose caller is not an
administrator, not the patient, and not the assigned provider is
rejected with an authorization error and the store is unchanged — the
serializer's save is never reached, whatever it would have done. -/
theorem create_unauthorized_rejected
    (callerUserId patientUserId kineUserId : Nat)
    (save : List Appointment →
      List Appointment × Except ApiError Appointment)
    (store : List Appointment)
    (h1 : callerUserId ≠ patientUserId) (h2 : callerUserId ≠ kineUserId) :
    appointmentCreatePost callerUserId false patientUserId kineUserId
        save store
      = (store, .error .authorizationError) := by
  unfold appointmentCreatePost
  simp [h1, h2]

/-- Witness for C8: caller 9 is neither patient user 2 nor provider
user 7 and not a superuser; the create view rejects and the empty store
stays empty even though `save` would have appended an appointment. -/
theorem create_unauthorized_rejected_witness :
    appointmentCreatePost 9 false 2 7
      (fun st =>
        (st ++ [⟨3, 1, 7, 2, 0, 540, 585, "requested", none, none⟩],
         .ok ⟨3, 1, 7, 2, 0, 540, 585, "requested", none, none⟩))
      []
      = ([], .error .authorizationError) :=
  create_unauthorized_rejected 9 2 7
    (fun st =>
      (st ++ [⟨3, 1, 7, 2, 0, 540, 585, "requested", none, none⟩],
       .ok ⟨3, 1, 7, 2, 0, 540, 585, "requested", none, none⟩))
    [] (by decide) (by decide)

end Scheduling
